import Mathlib

/-
Shallow embedding of src/app.py (a Streamlit job-application tracker that
parses free text with a Gemini HTTP call and creates/updates rows of a
Google Sheet through gspread).  Rows and columns are 1-based as in gspread;
absent cells read as the empty string, matching gspread fill_gaps.
-/

namespace AppTracker

/-- ASCII lowering; models Python str.casefold / str.lower on the ASCII range,
which is how gspread compares cell values when case_sensitive=False. -/
def lowerStr (s : String) : String := String.mk (s.data.map Char.toLower)

/-- Models Python str.upper on the ASCII range (line 221: .upper()). -/
def upperStr (s : String) : String := String.mk (s.data.map Char.toUpper)

/-- Python `a or b` on strings: the empty string is falsy. -/
def pyOr (a b : String) : String := if a = "" then b else a

/-- Python str.strip(): remove leading and trailing whitespace. -/
def pyStrip (s : String) : String :=
  String.mk (((s.data.dropWhile Char.isWhitespace).reverse.dropWhile Char.isWhitespace).reverse)

/-- Python now.split(" ")[0]: the characters before the first space. -/
def splitFirstSpace (s : String) : String :=
  String.mk (s.data.takeWhile (fun c => !(c == ' ')))

/-- Truthiness of an optional JSON string field: None and "" are falsy
(line 276: `if value:`). -/
def truthyOpt (v : Option String) : Option String :=
  match v with
  | none => none
  | some s => if s = "" then none else some s

/-- The JSON object returned by parse_prompt_with_gemini, as a record of
optional string fields; `none` models a missing key, so `.getD d` models
Python dict.get(k, d). Field order: action, company, company_name,
job_title, contact, status, notes, link, salary, location,
next_step_date, recruiter_contact. -/
structure ParsedData where
  action : Option String
  company : Option String
  company_name : Option String
  job_title : Option String
  contact : Option String
  status : Option String
  notes : Option String
  link : Option String
  salary : Option String
  location : Option String
  next_step_date : Option String
  recruiter_contact : Option String
deriving DecidableEq

def emptyPD : ParsedData :=
  ⟨none, none, none, none, none, none, none, none, none, none, none, none⟩

/-- Line 220: (parsed_data.get("company", "") or parsed_data.get("company_name", "")).strip() -/
def companyOf (pd : ParsedData) : String :=
  pyStrip (pyOr (pd.company.getD "") (pd.company_name.getD ""))

/-- The spreadsheet contents: a list of rows, each a list of cell strings. -/
abbrev Sheet := List (List String)

/-- Cell value at 1-based row r and 1-based column c; absent cells read as "". -/
def cellVal (sheet : Sheet) (r c : Nat) : String :=
  (sheet.getD (r - 1) []).getD (c - 1) ""

/-- Pad a row with empty cells up to length n. -/
def padTo (row : List String) (n : Nat) : List String :=
  row ++ List.replicate (n - row.length) ""

/-- Write value v into 1-based column c of a row, padding if needed. -/
def setCellRow (row : List String) (c : Nat) (v : String) : List String :=
  (padTo row c).set (c - 1) v

/-- One worksheet.update(f"{COL}{ROW}", value) call: write a single cell. -/
def setCell (sheet : Sheet) (r c : Nat) (v : String) : Sheet :=
  sheet.set (r - 1) (setCellRow (sheet.getD (r - 1) []) c v)

/-- Line 230: worksheet.findall(company, in_column=1, case_sensitive=False).
gspread compares each cell of column 1 for full-value equality up to case
(casefold), returning matches in top-to-bottom order; we return the 1-based
row numbers.  idx is the row number of the first row of rows. -/
def findallFrom (rows : Sheet) (q : String) (idx : Nat) : List Nat :=
  match rows with
  | [] => []
  | row :: rest =>
      if lowerStr (row.getD 0 "") = lowerStr q then idx :: findallFrom rest q (idx + 1)
      else findallFrom rest q (idx + 1)

def findallCol1 (sheet : Sheet) (q : String) : List Nat := findallFrom sheet q 1

/-- Does the pattern p occur at the start of s? -/
def matchAt : List Char → List Char → Bool
  | [], _ => true
  | _ :: _, [] => false
  | p :: ps, c :: cs => (p == c) && matchAt ps cs

/-- Does s contain p as a contiguous substring? -/
def containsSub : List Char → List Char → Bool
  | [], p => p.isEmpty
  | c :: rest, p => matchAt p (c :: rest) || containsSub rest p

/-- Modelled from the spec words for claim C2: a case-insensitive SUBSTRING
search by company name over column 1, returning 1-based row numbers in
top-to-bottom order.  This is the behaviour the spec describes; compare
with findallCol1, the behaviour of the code. -/
def findallSubstringSpec (sheet : Sheet) (q : String) : List Nat :=
  (List.range sheet.length).filterMap (fun i =>
    if containsSub (lowerStr ((sheet.getD i []).getD 0 "")).data (lowerStr q).data
    then some (i + 1) else none)

/-- Lines 235-248: the fixed 12-element row appended on CREATE.  The fourth
entry models now.split(" ")[0] (Date Applied); the last is the full
timestamp (Last Updated). -/
def newRow (company : String) (pd : ParsedData) (now : String) : List String :=
  [ company
  , pd.job_title.getD ""
  , pd.contact.getD ""
  , splitFirstSpace now
  , pd.status.getD "Applied"
  , pd.notes.getD ""
  , pd.link.getD ""
  , pd.salary.getD ""
  , pd.location.getD ""
  , pd.next_step_date.getD ""
  , pd.recruiter_contact.getD ""
  , now ]

/-- Lines 262-273: the updates dict, keyed by 1-based column index
(B=2, C=3, E=5, F=6, G=7, H=8, I=9, J=10, K=11, L=12), in insertion order. -/
def updatesBase (pd : ParsedData) (now : String) : List (Nat × Option String) :=
  [ (2, pd.job_title), (3, pd.contact), (5, pd.status), (6, pd.notes)
  , (7, pd.link), (8, pd.salary), (9, pd.location), (10, pd.next_step_date)
  , (11, pd.recruiter_contact), (12, some now) ]

/-- Lines 275-277: the loop writes only the truthy values. -/
def truthyFilter (l : List (Nat × Option String)) : List (Nat × String) :=
  l.filterMap (fun p => (truthyOpt p.2).map (fun s => (p.1, s)))

/-- The cell writes actually performed by the update branch, in order. -/
def performedWrites (pd : ParsedData) (now : String) : List (Nat × String) :=
  truthyFilter (updatesBase pd now)

/-- Apply a list of single-cell writes to row r. -/
def applyWrites (sheet : Sheet) (r : Nat) (ws : List (Nat × String)) : Sheet :=
  ws.foldl (fun sh p => setCell sh r p.1 p.2) sheet

/-- Subclasses of requests.exceptions.RequestException that the HTTP stack
can raise: the base class, HTTPError from raise_for_status (line 160),
a connection failure, or a timeout. -/
inductive ReqSub
  | base
  | httpStatus
  | connFail
  | timedOut
deriving DecidableEq

/-- The exception classes that the body of the try at lines 158-164 can
raise: a RequestException subclass from requests.post / raise_for_status /
response.json, KeyError or IndexError from indexing the response dict,
or json.JSONDecodeError from json.loads. -/
inductive ApiExc
  | reqExc (s : ReqSub)
  | keyError
  | indexError
  | jsonDecode
deriving DecidableEq

/-- Outcome of the Gemini HTTP exchange: structured data, or an exception. -/
inductive ApiResult
  | success (pd : ParsedData)
  | failure (e : ApiExc)
deriving DecidableEq

/-- The user-facing messages the script can emit (st.error / st.info /
notification_placeholder.markdown / st.dataframe and friends). -/
inductive Msg
  | connectError
  | secretsInfo
  | spreadsheetNotFound
  | worksheetNotFound
  | openSheetError
  | missingApiKey
  | apiRequestError
  | apiResponseError
  | apiJsonError
  | enterUpdate
  | noCompany
  | addingEntry
  | addedOk
  | updatingEntry
  | couldNotFindToUpdate
  | updatedOk
  | undecided
  | sheetUpdateError
  | dataShown
  | emptySheet
  | fetchError
deriving DecidableEq

/-- Observable behaviour of one parse_prompt_with_gemini call: the returned
value, how many HTTP posts were made, the backoff delays slept between
attempts, the messages shown, and any exception that escaped the function
because no except clause caught it. -/
structure ParseOutput where
  result : Option ParsedData
  httpPosts : Nat
  backoffDelays : List Nat
  msgs : List Msg
  uncaught : Option ApiExc
deriving DecidableEq

/-- Line 166: except requests.exceptions.RequestException (subclass test). -/
def catchesRequestExc : ApiExc → Bool
  | .reqExc _ => true
  | _ => false

/-- Line 169: except (KeyError, IndexError). -/
def catchesKeyIndex : ApiExc → Bool
  | .keyError => true
  | .indexError => true
  | _ => false

/-- Line 172: except json.JSONDecodeError. -/
def catchesJson : ApiExc → Bool
  | .jsonDecode => true
  | _ => false

/-- The message produced by the except clause that catches each exception
class (lines 166-175). -/
def apiFailMsg (e : ApiExc) : Msg :=
  match e with
  | .reqExc _ => Msg.apiRequestError
  | .keyError => Msg.apiResponseError
  | .indexError => Msg.apiResponseError
  | .jsonDecode => Msg.apiJsonError

/-- Lines 113-175: parse_prompt_with_gemini.  If the secrets hold no
GEMINI_API_KEY the function errors out before any HTTP post; otherwise it
posts exactly once and either returns the parsed JSON or runs the first
except clause whose class covers the raised exception. -/
def parsePromptWithGemini (hasKey : Bool) (api : ApiResult) : ParseOutput :=
  if hasKey = false then ⟨none, 0, [], [Msg.missingApiKey], none⟩
  else
    match api with
    | .success pd => ⟨some pd, 1, [], [], none⟩
    | .failure e =>
        if catchesRequestExc e then ⟨none, 1, [], [Msg.apiRequestError], none⟩
        else if catchesKeyIndex e then ⟨none, 1, [], [Msg.apiResponseError], none⟩
        else if catchesJson e then ⟨none, 1, [], [Msg.apiJsonError], none⟩
        else ⟨none, 1, [], [], some e⟩

/-- The shape of one outgoing HTTP request as issued by the requests
library call. -/
structure HttpRequest where
  url : String
  hasJsonBody : Bool
  timeout : Option Nat
deriving DecidableEq

/-- Line 159: requests.post(api_url, json=payload).  The call passes no
timeout argument, so the timeout field is none (requests then waits
indefinitely). -/
def geminiHttpRequest (apiKey : String) : HttpRequest :=
  ⟨"https://generativelanguage.googleapis.com/v1beta/models/gemini-2.5-flash-preview-05-20:generateContent?key=" ++ apiKey
  , true, none⟩

/-- Outcome of client.open / spreadsheet.worksheet (lines 198-210). -/
inductive OpenOutcome
  | ok
  | ssNotFound
  | wsNotFound
  | otherErr
deriving DecidableEq

/-- One run of the script body: the outcomes of each external boundary,
the widget inputs, and the current timestamp string.  writeRaises models a
gspread exception raised by the first sheet operation inside the try at
line 228; readRaises one raised by get_all_records at line 296.  Both
those try blocks catch Exception, hence every class. -/
structure Env where
  connectOk : Bool
  openOutcome : OpenOutcome
  buttonPressed : Bool
  prompt : String
  hasGeminiKey : Bool
  apiResult : ApiResult
  writeRaises : Bool
  readRaises : Bool
  now : String
deriving DecidableEq

/-- A sheet mutation issued by the handler: worksheet.append_row (line 249)
or worksheet.update of one cell (line 277). -/
inductive WriteOp
  | appendRow (row : List String)
  | updateCell (r c : Nat) (v : String)
deriving DecidableEq

def applyOp (sheet : Sheet) (op : WriteOp) : Sheet :=
  match op with
  | .appendRow row => sheet ++ [row]
  | .updateCell r c v => setCell sheet r c v

def applySheetOps (sheet : Sheet) (ops : List WriteOp) : Sheet :=
  ops.foldl applyOp sheet

/-- Result of the update section (lines 212-289): the writes issued, the
messages shown, the number of Gemini posts, an exception that escaped, and
whether the handler hit a return statement that skips the dashboard. -/
structure Phase where
  writes : List WriteOp
  msgs : List Msg
  geminiPosts : Nat
  uncaught : Option ApiExc
  earlyReturn : Bool
deriving DecidableEq

/-- Lines 219-286: the handler once parsed_data is available.  The company
check (lines 223-225) returns early; the try at 228 catches every
exception from the sheet operations (modelled as the first operation
raising, so no write lands) and falls through to the dashboard. -/
def handleParsed (env : Env) (sheet : Sheet) (pd : ParsedData) (posts : Nat) : Phase :=
  let company := companyOf pd
  if company = "" then ⟨[], [Msg.noCompany], posts, none, true⟩
  else if env.writeRaises then ⟨[], [Msg.sheetUpdateError], posts, none, false⟩
  else
    let action := upperStr (pd.action.getD "")
    let cells := findallCol1 sheet company
    if action = "CREATE" ∧ cells = [] then
      ⟨[WriteOp.appendRow (newRow company pd env.now)]
      , [Msg.addingEntry, Msg.addedOk], posts, none, false⟩
    else if action = "UPDATE" ∨ cells ≠ [] then
      match cells with
      | [] => ⟨[], [Msg.couldNotFindToUpdate], posts, none, true⟩
      | r :: _ =>
          ⟨(performedWrites pd env.now).map (fun w => WriteOp.updateCell r w.1 w.2)
          , [Msg.updatingEntry, Msg.updatedOk], posts, none, false⟩
    else ⟨[], [Msg.undecided], posts, none, false⟩

/-- Lines 212-289: the update-button section.  An empty prompt shows a
message and calls nothing; a parse that returned None falls through with
no write (the if at line 218 has no else). -/
def updatePhase (env : Env) (sheet : Sheet) : Phase :=
  if env.buttonPressed = false then ⟨[], [], 0, none, false⟩
  else if env.prompt = "" then ⟨[], [Msg.enterUpdate], 0, none, false⟩
  else
    let p := parsePromptWithGemini env.hasGeminiKey env.apiResult
    match p.result with
    | none => ⟨[], p.msgs, p.httpPosts, p.uncaught, p.uncaught.isSome⟩
    | some pd => handleParsed env sheet pd p.httpPosts

/-- Observable behaviour of one full run of main. -/
structure Trace where
  writes : List WriteOp
  msgs : List Msg
  geminiPosts : Nat
  sheetReads : Nat
  uncaught : Option ApiExc
deriving DecidableEq

/-- Lines 180-303: one run of main, from the button state to the dashboard.
The dashboard (lines 291-303) runs unless connect or open failed or an
early return fired; it always calls get_all_records exactly once, with no
cache of any kind, and reads the sheet as mutated by this runs writes. -/
def runMain (env : Env) (sheet : Sheet) : Trace :=
  if env.connectOk = false then ⟨[], [Msg.connectError, Msg.secretsInfo], 0, 0, none⟩
  else
    match env.openOutcome with
    | .ssNotFound => ⟨[], [Msg.spreadsheetNotFound], 0, 0, none⟩
    | .wsNotFound => ⟨[], [Msg.worksheetNotFound], 0, 0, none⟩
    | .otherErr => ⟨[], [Msg.openSheetError], 0, 0, none⟩
    | .ok =>
        let u := updatePhase env sheet
        if u.earlyReturn then ⟨u.writes, u.msgs, u.geminiPosts, 0, u.uncaught⟩
        else
          let cur := applySheetOps sheet u.writes
          let dmsgs :=
            if env.readRaises then [Msg.fetchError]
            else if 2 ≤ cur.length then [Msg.dataShown] else [Msg.emptySheet]
          ⟨u.writes, u.msgs ++ dmsgs, u.geminiPosts, 1, u.uncaught⟩

/-- Line 135: the predefined status categories the system prompt enumerates. -/
def statusVocab : List String :=
  [ "Applied", "Assessment", "Interview Scheduled", "Offer Received"
  , "Rejected", "Followed Up", "Withdrew" ]

/- ------------------------------------------------------------------ -/
/- Helper lemmas about cells, rows and writes.                        -/
/- ------------------------------------------------------------------ -/

theorem getD_rep (m j : Nat) : (List.replicate m ("" : String)).getD j "" = "" := by
  induction m generalizing j with
  | zero => simp [List.getD]
  | succ n ih =>
      cases j with
      | zero => simp [List.replicate]
      | succ k => simp [List.replicate, ih k]

theorem getD_append_rep (row : List String) (m j : Nat) :
    (row ++ List.replicate m "").getD j "" = row.getD j "" := by
  induction row generalizing j with
  | nil => simp [getD_rep m j]
  | cons a as ih =>
      cases j with
      | zero => simp [List.getD]
      | succ k => simpa [List.getD] using ih k

theorem getD_set_self {α : Type _} (l : List α) (i : Nat) (v d : α) (h : i < l.length) :
    (l.set i v).getD i d = v := by
  induction l generalizing i with
  | nil => simp at h
  | cons a as ih =>
      cases i with
      | zero => simp [List.getD]
      | succ k =>
          simp only [List.set_cons_succ, List.getD_cons_succ]
          exact ih k (by simpa using h)

theorem getD_set_ne {α : Type _} (l : List α) (i j : Nat) (v d : α) (h : i ≠ j) :
    (l.set i v).getD j d = l.getD j d := by
  induction l generalizing i j with
  | nil => simp
  | cons a as ih =>
      cases i with
      | zero =>
          cases j with
          | zero => exact absurd rfl h
          | succ k => simp [List.getD]
      | succ m =>
          cases j with
          | zero => simp [List.getD]
          | succ k =>
              simp only [List.set_cons_succ, List.getD_cons_succ]
              exact ih m k (fun hmk => h (by omega))

theorem set_of_length_le {α : Type _} (l : List α) (i : Nat) (v : α) (h : l.length ≤ i) :
    l.set i v = l := by
  induction l generalizing i with
  | nil => simp
  | cons a as ih =>
      cases i with
      | zero => simp at h
      | succ k => simpa using ih k (by simpa using h)

theorem padTo_length (row : List String) (n : Nat) :
    (padTo row n).length = max row.length n := by
  simp [padTo]
  omega

theorem padTo_getD (row : List String) (n j : Nat) :
    (padTo row n).getD j "" = row.getD j "" := by
  simpa [padTo] using getD_append_rep row (n - row.length) j

/-- Writing a cell changes that cell. -/
theorem setCellRow_same (row : List String) (c : Nat) (v : String) (hc : 1 ≤ c) :
    (setCellRow row c v).getD (c - 1) "" = v := by
  apply getD_set_self
  rw [padTo_length]
  omega

/-- Writing a cell leaves the other cells of the row unchanged. -/
theorem setCellRow_other (row : List String) (c j : Nat) (v : String) (h : c - 1 ≠ j) :
    (setCellRow row c v).getD j "" = row.getD j "" := by
  rw [setCellRow, getD_set_ne _ _ _ _ _ h, padTo_getD]

theorem setCell_length (sheet : Sheet) (r c : Nat) (v : String) :
    (setCell sheet r c v).length = sheet.length := by
  simp [setCell]

/-- A cell write does not touch other rows. -/
theorem setCell_row_other (sheet : Sheet) (r c : Nat) (v : String) (i : Nat) (h : i ≠ r - 1) :
    (setCell sheet r c v).getD i [] = sheet.getD i [] := by
  exact getD_set_ne _ _ _ _ _ (fun hh => h hh.symm)

theorem cellVal_setCell_same (sheet : Sheet) (r c : Nat) (v : String)
    (hr : 1 ≤ r) (hrn : r ≤ sheet.length) (hc : 1 ≤ c) :
    cellVal (setCell sheet r c v) r c = v := by
  unfold cellVal setCell
  rw [getD_set_self _ _ _ _ (by omega)]
  exact setCellRow_same _ _ _ hc

theorem cellVal_setCell_other_col (sheet : Sheet) (r c c' : Nat) (v : String)
    (hc : 1 ≤ c) (hc' : 1 ≤ c') (hne : c' ≠ c) :
    cellVal (setCell sheet r c v) r c' = cellVal sheet r c' := by
  unfold cellVal setCell
  rcases Nat.lt_or_ge (r - 1) sheet.length with hlt | hge
  · rw [getD_set_self _ _ _ _ hlt]
    exact setCellRow_other _ _ _ _ (by omega)
  · rw [set_of_length_le _ _ _ hge]

theorem cellVal_setCell_other_row (sheet : Sheet) (r c : Nat) (v : String) (i c' : Nat)
    (hi : 1 ≤ i) (hr : 1 ≤ r) (hne : i ≠ r) :
    cellVal (setCell sheet r c v) i c' = cellVal sheet i c' := by
  unfold cellVal
  rw [setCell_row_other _ _ _ _ _ (by omega)]

theorem applyWrites_length (sheet : Sheet) (r : Nat) (ws : List (Nat × String)) :
    (applyWrites sheet r ws).length = sheet.length := by
  induction ws generalizing sheet with
  | nil => rfl
  | cons w rest ih =>
      show (applyWrites (setCell sheet r w.1 w.2) r rest).length = sheet.length
      rw [ih, setCell_length]

/-- Updating row r leaves every other row of the sheet untouched. -/
theorem applyWrites_row_other (sheet : Sheet) (r : Nat) (ws : List (Nat × String))
    (i : Nat) (h : i ≠ r - 1) :
    (applyWrites sheet r ws).getD i [] = sheet.getD i [] := by
  induction ws generalizing sheet with
  | nil => rfl
  | cons w rest ih =>
      show (applyWrites (setCell sheet r w.1 w.2) r rest).getD i [] = sheet.getD i []
      rw [ih, setCell_row_other _ _ _ _ _ h]

theorem lookup_none_of_not_mem_keys (c : Nat) (ws : List (Nat × String))
    (h : c ∉ ws.map Prod.fst) : List.lookup c ws = none := by
  induction ws with
  | nil => rfl
  | cons w rest ih =>
      simp only [List.map_cons, List.mem_cons] at h
      push_neg at h
      have hne : (c == w.1) = false := by
        simp [beq_iff_eq]
        exact h.1
      simp [List.lookup, hne, ih h.2]

theorem truthyFilter_keys (l : List (Nat × Option String)) :
    (truthyFilter l).map Prod.fst ⊆ l.map Prod.fst := by
  intro k hk
  rcases List.mem_map.mp hk with ⟨w, hw, rfl⟩
  rw [truthyFilter] at hw
  rcases List.mem_filterMap.mp hw with ⟨p, hp, hfp⟩
  cases ht : truthyOpt p.2 with
  | none => rw [ht] at hfp; simp at hfp
  | some s =>
      rw [ht] at hfp
      have hwp : w = (p.1, s) := by
        simpa using hfp.symm
      rw [hwp]
      exact List.mem_map_of_mem Prod.fst hp

/-- Columns not written keep their value on the target row. -/
theorem applyWrites_not_mem (r c : Nat) (hc : 1 ≤ c) :
    ∀ (ws : List (Nat × String)) (sheet : Sheet),
      (∀ w ∈ ws, 1 ≤ w.1) → c ∉ ws.map Prod.fst →
      cellVal (applyWrites sheet r ws) r c = cellVal sheet r c := by
  intro ws
  induction ws with
  | nil => intro sheet _ _; rfl
  | cons w rest ih =>
      intro sheet hks h
      have hcw : c ≠ w.1 := by
        intro hcw; exact h (by simp [hcw])
      have h2 : c ∉ rest.map Prod.fst := by
        intro hm; exact h (by simp [hm])
      show cellVal (applyWrites (setCell sheet r w.1 w.2) r rest) r c = _
      rw [ih _ (fun x hx => hks x (List.mem_cons_of_mem _ hx)) h2,
        cellVal_setCell_other_col _ _ _ _ _ (hks w (List.mem_cons_self _ _)) hc hcw]

/-- With distinct positive write columns, the final value of a cell of the
target row is the written value when that column was written and the old
value otherwise. -/
theorem cellVal_applyWrites (r c : Nat) (hr : 1 ≤ r) (hc : 1 ≤ c) :
    ∀ (ws : List (Nat × String)) (sheet : Sheet), r ≤ sheet.length →
      (∀ w ∈ ws, 1 ≤ w.1) → (ws.map Prod.fst).Nodup →
      cellVal (applyWrites sheet r ws) r c = (List.lookup c ws).getD (cellVal sheet r c) := by
  intro ws
  induction ws with
  | nil => intro sheet _ _ _; rfl
  | cons w rest ih =>
      intro sheet hrn hks hnd
      obtain ⟨k, v⟩ := w
      simp only [List.map_cons, List.nodup_cons] at hnd
      show cellVal (applyWrites (setCell sheet r k v) r rest) r c = _
      by_cases hcw : c = k
      · rw [applyWrites_not_mem r c hc rest _
            (fun x hx => hks x (List.mem_cons_of_mem _ hx)) (hcw ▸ hnd.1)]
        rw [hcw, cellVal_setCell_same _ _ _ _ hr hrn
            (hks (k, v) (List.mem_cons_self _ _))]
        have hb : (c == k) = true := by simp [hcw]
        simp [List.lookup, hb]
      · rw [ih (setCell sheet r k v) (by rw [setCell_length]; exact hrn)
            (fun x hx => hks x (List.mem_cons_of_mem _ hx)) hnd.2]
        rw [cellVal_setCell_other_col _ _ _ _ _
            (hks (k, v) (List.mem_cons_self _ _)) hc hcw]
        have hb : (c == k) = false := by simp [hcw]
        simp [List.lookup, hb]

/-- Looking up a column among the performed writes gives the truthy-filtered
value of the corresponding field. -/
theorem lookup_truthyFilter :
    ∀ (l : List (Nat × Option String)), (l.map Prod.fst).Nodup → ∀ c : Nat,
      List.lookup c (truthyFilter l) = (List.lookup c l).bind truthyOpt := by
  intro l
  induction l with
  | nil => intro _ c; rfl
  | cons p rest ih =>
      intro hnd c
      obtain ⟨k, v⟩ := p
      simp only [List.map_cons, List.nodup_cons] at hnd
      by_cases hcp : c = k
      · have hb : (c == k) = true := by simp [hcp]
        cases hv : truthyOpt v with
        | none =>
            have h1 : truthyFilter ((k, v) :: rest) = truthyFilter rest := by
              simp [truthyFilter, List.filterMap_cons, hv]
            have h2 : List.lookup c (truthyFilter rest) = none := by
              apply lookup_none_of_not_mem_keys
              intro hm
              exact (hcp ▸ hnd.1) (truthyFilter_keys rest hm)
            rw [h1, h2]
            simp [List.lookup, hb, hv]
        | some s =>
            have h1 : truthyFilter ((k, v) :: rest) = (k, s) :: truthyFilter rest := by
              simp [truthyFilter, List.filterMap_cons, hv]
            rw [h1]
            simp [List.lookup, hb, hv]
      · have hb : (c == k) = false := by simp [hcp]
        have h1 : List.lookup c (truthyFilter ((k, v) :: rest)) =
            List.lookup c (truthyFilter rest) := by
          cases hv : truthyOpt v with
          | none => simp [truthyFilter, List.filterMap_cons, hv]
          | some s =>
              have h2 : truthyFilter ((k, v) :: rest) = (k, s) :: truthyFilter rest := by
                simp [truthyFilter, List.filterMap_cons, hv]
              rw [h2]
              simp [List.lookup, hb]
        rw [h1, ih hnd.2]
        simp [List.lookup, hb]

theorem updatesBase_keys (pd : ParsedData) (now : String) :
    (updatesBase pd now).map Prod.fst = [2, 3, 5, 6, 7, 8, 9, 10, 11, 12] := rfl

/-- Every row number returned by findall is at least the starting row. -/
theorem findallFrom_ge :
    ∀ (rows : Sheet) (q : String) (idx r : Nat), r ∈ findallFrom rows q idx → idx ≤ r := by
  intro rows q
  induction rows with
  | nil => intro idx r h; simp [findallFrom] at h
  | cons row rest ih =>
      intro idx r h
      rw [findallFrom] at h
      by_cases hm : lowerStr (row.getD 0 "") = lowerStr q
      · rw [if_pos hm] at h
        rcases List.mem_cons.mp h with h | h
        · omega
        · have := ih (idx + 1) r h
          omega
      · rw [if_neg hm] at h
        have := ih (idx + 1) r h
        omega

/-- The head of the findall result is the topmost match. -/
theorem findallFrom_head_min :
    ∀ (rows : Sheet) (q : String) (idx r : Nat) (rest : List Nat),
      findallFrom rows q idx = r :: rest → ∀ x ∈ findallFrom rows q idx, r ≤ x := by
  intro rows q
  induction rows with
  | nil => intro idx r rest h; simp [findallFrom] at h
  | cons row rows' ih =>
      intro idx r rest h x hx
      rw [findallFrom] at h hx
      by_cases hm : lowerStr (row.getD 0 "") = lowerStr q
      · rw [if_pos hm] at h hx
        have hr : idx = r := by
          injection h
        rcases List.mem_cons.mp hx with hx | hx
        · omega
        · have := findallFrom_ge rows' q (idx + 1) x hx
          omega
      · rw [if_neg hm] at h hx
        exact ih (idx + 1) r rest h x hx

/-- Membership characterization of findall, starting at row number idx. -/
theorem findallFrom_mem :
    ∀ (rows : Sheet) (q : String) (idx r : Nat),
      r ∈ findallFrom rows q idx ↔
        ∃ j, j < rows.length ∧ r = idx + j ∧
          lowerStr ((rows.getD j []).getD 0 "") = lowerStr q := by
  intro rows q
  induction rows with
  | nil => intro idx r; simp [findallFrom]
  | cons row rows' ih =>
      intro idx r
      rw [findallFrom]
      by_cases hm : lowerStr (row.getD 0 "") = lowerStr q
      · rw [if_pos hm]
        constructor
        · intro h
          rcases List.mem_cons.mp h with h | h
          · exact ⟨0, by simp, by omega, by simpa [List.getD] using hm⟩
          · rcases (ih (idx + 1) r).mp h with ⟨j, hj, hr, hmm⟩
            exact ⟨j + 1, by simpa using hj, by omega, by simpa [List.getD] using hmm⟩
        · rintro ⟨j, hj, hr, hmm⟩
          cases j with
          | zero =>
              have : r = idx := by omega
              rw [this]
              exact List.mem_cons_self _ _
          | succ n =>
              apply List.mem_cons_of_mem
              apply (ih (idx + 1) r).mpr
              exact ⟨n, by simpa using hj, by omega, by simpa [List.getD] using hmm⟩
      · rw [if_neg hm]
        constructor
        · intro h
          rcases (ih (idx + 1) r).mp h with ⟨j, hj, hr, hmm⟩
          exact ⟨j + 1, by simpa using hj, by omega, by simpa [List.getD] using hmm⟩
        · rintro ⟨j, hj, hr, hmm⟩
          cases j with
          | zero =>
              exact absurd (by simpa [List.getD] using hmm) hm
          | succ n =>
              apply (ih (idx + 1) r).mpr
              exact ⟨n, by simpa using hj, by omega, by simpa [List.getD] using hmm⟩

/-- The rows located by the code: 1-based, in range, and the column-1 cell
equals the company up to case. -/
theorem findallCol1_mem (sheet : Sheet) (q : String) (r : Nat) :
    r ∈ findallCol1 sheet q ↔
      1 ≤ r ∧ r ≤ sheet.length ∧ lowerStr (cellVal sheet r 1) = lowerStr q := by
  rw [findallCol1, findallFrom_mem]
  constructor
  · rintro ⟨j, hj, rfl, hm⟩
    refine ⟨by omega, by omega, ?_⟩
    have he : 1 + j - 1 = j := by omega
    simpa [cellVal, he] using hm
  · rintro ⟨h1, h2, hm⟩
    refine ⟨r - 1, by omega, by omega, ?_⟩
    have he : r - 1 = r - 1 := rfl
    simpa [cellVal] using hm

/-- A list of single-cell update ops acts as applyWrites. -/
theorem applySheetOps_updates (r : Nat) :
    ∀ (ws : List (Nat × String)) (sheet : Sheet),
      applySheetOps sheet (ws.map (fun w => WriteOp.updateCell r w.1 w.2)) =
        applyWrites sheet r ws := by
  intro ws
  induction ws with
  | nil => intro sheet; rfl
  | cons w rest ih =>
      intro sheet
      exact ih (setCell sheet r w.1 w.2)

theorem parse_success (pd : ParsedData) :
    parsePromptWithGemini true (ApiResult.success pd) = ⟨some pd, 1, [], [], none⟩ := rfl

/-- Each exception class the try body can raise is caught by one of the
three except clauses, which shows its message and returns None. -/
theorem parse_failure (e : ApiExc) :
    parsePromptWithGemini true (ApiResult.failure e) = ⟨none, 1, [], [apiFailMsg e], none⟩ := by
  cases e with
  | reqExc s => rfl
  | keyError => rfl
  | indexError => rfl
  | jsonDecode => rfl

/-- No exception ever escapes parse_prompt_with_gemini. -/
theorem parse_uncaught (hasKey : Bool) (api : ApiResult) :
    (parsePromptWithGemini hasKey api).uncaught = none := by
  cases hasKey with
  | false => rfl
  | true =>
      cases api with
      | success pd => rfl
      | failure e => cases e <;> rfl

theorem parse_posts (hasKey : Bool) (api : ApiResult) :
    (parsePromptWithGemini hasKey api).httpPosts ≤ 1 := by
  cases hasKey with
  | false => simp [parsePromptWithGemini]
  | true =>
      cases api with
      | success pd => simp [parsePromptWithGemini]
      | failure e => cases e <;> simp [parsePromptWithGemini, catchesRequestExc, catchesKeyIndex, catchesJson]

theorem parse_delays (hasKey : Bool) (api : ApiResult) :
    (parsePromptWithGemini hasKey api).backoffDelays = [] := by
  cases hasKey with
  | false => rfl
  | true =>
      cases api with
      | success pd => rfl
      | failure e => cases e <;> rfl

/-- Unfolding of runMain when connecting and opening succeed. -/
theorem runMain_ok (env : Env) (sheet : Sheet)
    (hc : env.connectOk = true) (ho : env.openOutcome = OpenOutcome.ok) :
    runMain env sheet =
      (if (updatePhase env sheet).earlyReturn then
        ⟨(updatePhase env sheet).writes, (updatePhase env sheet).msgs,
          (updatePhase env sheet).geminiPosts, 0, (updatePhase env sheet).uncaught⟩
      else
        ⟨(updatePhase env sheet).writes,
          (updatePhase env sheet).msgs ++
            (if env.readRaises then [Msg.fetchError]
             else if 2 ≤ (applySheetOps sheet (updatePhase env sheet).writes).length then
               [Msg.dataShown]
             else [Msg.emptySheet]),
          (updatePhase env sheet).geminiPosts, 1, (updatePhase env sheet).uncaught⟩) := by
  rw [runMain, hc, ho]
  simp

/-- Unfolding of updatePhase when the button is pressed, the prompt is
nonempty, the key is present and the API returned parsed data. -/
theorem updatePhase_parsed (env : Env) (sheet : Sheet) (pd : ParsedData)
    (hb : env.buttonPressed = true) (hp : env.prompt ≠ "")
    (hk : env.hasGeminiKey = true) (ha : env.apiResult = ApiResult.success pd) :
    updatePhase env sheet = handleParsed env sheet pd 1 := by
  rw [updatePhase, hb, hk, ha, if_neg (by simp), if_neg hp, parse_success]

theorem truthyFilter_keys_sublist (l : List (Nat × Option String)) :
    List.Sublist ((truthyFilter l).map Prod.fst) (l.map Prod.fst) := by
  induction l with
  | nil => simp [truthyFilter]
  | cons p rest ih =>
      obtain ⟨k, v⟩ := p
      cases hv : truthyOpt v with
      | none =>
          have h1 : truthyFilter ((k, v) :: rest) = truthyFilter rest := by
            simp [truthyFilter, List.filterMap_cons, hv]
          rw [h1]
          exact ih.cons _
      | some s =>
          have h1 : truthyFilter ((k, v) :: rest) = (k, s) :: truthyFilter rest := by
            simp [truthyFilter, List.filterMap_cons, hv]
          rw [h1]
          simpa using ih.cons₂ k

theorem performedWrites_keys (pd : ParsedData) (now : String) :
    (performedWrites pd now).map Prod.fst ⊆ [2, 3, 5, 6, 7, 8, 9, 10, 11, 12] := by
  intro k hk
  have h := truthyFilter_keys (updatesBase pd now) hk
  rwa [updatesBase_keys] at h

theorem performedWrites_pos (pd : ParsedData) (now : String) :
    ∀ w ∈ performedWrites pd now, 1 ≤ w.1 := by
  intro w hw
  have hk : w.1 ∈ [2, 3, 5, 6, 7, 8, 9, 10, 11, 12] :=
    performedWrites_keys pd now (List.mem_map_of_mem Prod.fst hw)
  simp at hk
  omega

theorem performedWrites_nodup (pd : ParsedData) (now : String) :
    ((performedWrites pd now).map Prod.fst).Nodup := by
  have hs := truthyFilter_keys_sublist (updatesBase pd now)
  rw [updatesBase_keys] at hs
  exact List.Nodup.sublist hs (by decide)

/-- The field the updates dict associates with each written column
(B=2, ..., K=11); other columns are never keyed by a field. -/
def fieldForCol (pd : ParsedData) : Nat → Option String
  | 2 => pd.job_title
  | 3 => pd.contact
  | 5 => pd.status
  | 6 => pd.notes
  | 7 => pd.link
  | 8 => pd.salary
  | 9 => pd.location
  | 10 => pd.next_step_date
  | 11 => pd.recruiter_contact
  | _ => none

/-- The value of any cell of the target row after the update loop. -/
theorem cellVal_update (pd : ParsedData) (now : String) (sheet : Sheet) (r c : Nat)
    (hr : 1 ≤ r) (hrn : r ≤ sheet.length) (hc : 1 ≤ c) :
    cellVal (applyWrites sheet r (performedWrites pd now)) r c =
      ((List.lookup c (updatesBase pd now)).bind truthyOpt).getD (cellVal sheet r c) := by
  rw [cellVal_applyWrites r c hr hc _ sheet hrn (performedWrites_pos pd now)
      (performedWrites_nodup pd now)]
  rw [performedWrites, lookup_truthyFilter _ (by rw [updatesBase_keys]; decide) c]

theorem handleParsed_nocompany (env : Env) (sheet : Sheet) (pd : ParsedData) (posts : Nat)
    (hcm : companyOf pd = "") :
    handleParsed env sheet pd posts = ⟨[], [Msg.noCompany], posts, none, true⟩ := by
  rw [handleParsed]
  simp [hcm]

theorem handleParsed_raises (env : Env) (sheet : Sheet) (pd : ParsedData) (posts : Nat)
    (hcm : companyOf pd ≠ "") (hw : env.writeRaises = true) :
    handleParsed env sheet pd posts = ⟨[], [Msg.sheetUpdateError], posts, none, false⟩ := by
  rw [handleParsed]
  simp [hcm, hw]

theorem handleParsed_create (env : Env) (sheet : Sheet) (pd : ParsedData) (posts : Nat)
    (hcm : companyOf pd ≠ "") (hw : env.writeRaises = false)
    (hact : upperStr (pd.action.getD "") = "CREATE")
    (hcells : findallCol1 sheet (companyOf pd) = []) :
    handleParsed env sheet pd posts =
      ⟨[WriteOp.appendRow (newRow (companyOf pd) pd env.now)]
      , [Msg.addingEntry, Msg.addedOk], posts, none, false⟩ := by
  rw [handleParsed]
  simp [hcm, hw, hact, hcells]

theorem handleParsed_update (env : Env) (sheet : Sheet) (pd : ParsedData) (posts : Nat)
    (r : Nat) (rest : List Nat)
    (hcm : companyOf pd ≠ "") (hw : env.writeRaises = false)
    (hcells : findallCol1 sheet (companyOf pd) = r :: rest) :
    handleParsed env sheet pd posts =
      ⟨(performedWrites pd env.now).map (fun w => WriteOp.updateCell r w.1 w.2)
      , [Msg.updatingEntry, Msg.updatedOk], posts, none, false⟩ := by
  rw [handleParsed]
  simp [hcm, hw, hcells]

theorem handleParsed_notfound (env : Env) (sheet : Sheet) (pd : ParsedData) (posts : Nat)
    (hcm : companyOf pd ≠ "") (hw : env.writeRaises = false)
    (hact : upperStr (pd.action.getD "") = "UPDATE")
    (hcells : findallCol1 sheet (companyOf pd) = []) :
    handleParsed env sheet pd posts = ⟨[], [Msg.couldNotFindToUpdate], posts, none, true⟩ := by
  rw [handleParsed]
  simp [hcm, hw, hact, hcells]

theorem handleParsed_undecided (env : Env) (sheet : Sheet) (pd : ParsedData) (posts : Nat)
    (hcm : companyOf pd ≠ "") (hw : env.writeRaises = false)
    (hact1 : upperStr (pd.action.getD "") ≠ "CREATE")
    (hact2 : upperStr (pd.action.getD "") ≠ "UPDATE")
    (hcells : findallCol1 sheet (companyOf pd) = []) :
    handleParsed env sheet pd posts = ⟨[], [Msg.undecided], posts, none, false⟩ := by
  rw [handleParsed]
  simp [hcm, hw, hact1, hact2, hcells]

theorem runMain_phase_early (env : Env) (sheet : Sheet)
    (hc : env.connectOk = true) (ho : env.openOutcome = OpenOutcome.ok)
    (hE : (updatePhase env sheet).earlyReturn = true) :
    runMain env sheet =
      ⟨(updatePhase env sheet).writes, (updatePhase env sheet).msgs,
        (updatePhase env sheet).geminiPosts, 0, (updatePhase env sheet).uncaught⟩ := by
  rw [runMain_ok env sheet hc ho, if_pos hE]

theorem runMain_phase_cont (env : Env) (sheet : Sheet)
    (hc : env.connectOk = true) (ho : env.openOutcome = OpenOutcome.ok)
    (hE : (updatePhase env sheet).earlyReturn = false) :
    runMain env sheet =
      ⟨(updatePhase env sheet).writes,
        (updatePhase env sheet).msgs ++
          (if env.readRaises then [Msg.fetchError]
           else if 2 ≤ (applySheetOps sheet (updatePhase env sheet).writes).length then
             [Msg.dataShown]
           else [Msg.emptySheet]),
        (updatePhase env sheet).geminiPosts, 1, (updatePhase env sheet).uncaught⟩ := by
  rw [runMain_ok env sheet hc ho, if_neg (by rw [hE]; exact Bool.false_ne_true)]

/- ------------------------------------------------------------------ -/
/- Claims.                                                            -/
/- ------------------------------------------------------------------ -/

/-- Claim C2, as stated, is false at a concrete input: with a single row
whose column-1 cell is "Vercel Inc", a case-insensitive substring search
for the company "Vercel" locates row 1, but the code (gspread findall
with a string query) compares whole cell values and locates nothing. -/
theorem c2_counterexample :
    findallSubstringSpec [["Vercel Inc"]] "Vercel" = [1] ∧
    findallCol1 [["Vercel Inc"]] "Vercel" = [] ∧
    findallCol1 [["Vercel Inc"]] "Vercel" ≠ findallSubstringSpec [["Vercel Inc"]] "Vercel" := by
  refine ⟨by decide, by decide, by decide⟩

/-- Claim C2 amended: locating the row for an application record is a
single case-insensitive EXACT (whole-cell) comparison of the company name
over column 1, and when several rows match, the first (topmost) matching
row is the one chosen. -/
theorem c2_exact_match_first_wins (sheet : Sheet) (q : String) :
    (∀ r, r ∈ findallCol1 sheet q ↔
        (1 ≤ r ∧ r ≤ sheet.length ∧ lowerStr (cellVal sheet r 1) = lowerStr q)) ∧
    (∀ r rest, findallCol1 sheet q = r :: rest →
        ∀ x, 1 ≤ x → x ≤ sheet.length → lowerStr (cellVal sheet x 1) = lowerStr q → r ≤ x) := by
  constructor
  · exact fun r => findallCol1_mem sheet q r
  · intro r rest h x hx1 hx2 hxm
    exact findallFrom_head_min sheet q 1 r rest h x
      ((findallCol1_mem sheet q x).mpr ⟨hx1, hx2, hxm⟩)

theorem c2_witness :
    findallCol1 [["Careers"], ["acme"], ["ACME"]] "Acme" = [2, 3] ∧
    2 ∈ findallCol1 [["Careers"], ["acme"], ["ACME"]] "Acme" ∧
    2 ≤ 3 := by
  refine ⟨by decide, ?_, ?_⟩
  · exact ((c2_exact_match_first_wins [["Careers"], ["acme"], ["ACME"]] "Acme").1 2).mpr
      ⟨by decide, by decide, by decide⟩
  · exact (c2_exact_match_first_wins [["Careers"], ["acme"], ["ACME"]] "Acme").2 2 [3]
      (by decide) 3 (by decide) (by decide) (by decide)

/-- Claim C3, as stated, is false at a concrete input: when the HTTP call
fails with a RequestException, the code makes exactly one HTTP post, never
two, and sleeps through no backoff delays; and it has three distinct error
branches, not one, as the KeyError branch shows a different message. -/
theorem c3_counterexample :
    (parsePromptWithGemini true (ApiResult.failure (ApiExc.reqExc ReqSub.base))).httpPosts = 1 ∧
    ¬ 2 ≤ (parsePromptWithGemini true (ApiResult.failure (ApiExc.reqExc ReqSub.base))).httpPosts ∧
    (parsePromptWithGemini true (ApiResult.failure (ApiExc.reqExc ReqSub.base))).backoffDelays = [] ∧
    (parsePromptWithGemini true (ApiResult.failure ApiExc.keyError)).msgs ≠
      (parsePromptWithGemini true (ApiResult.failure (ApiExc.reqExc ReqSub.base))).msgs := by
  refine ⟨by decide, by decide, by decide, by decide⟩

/-- Claim C3 amended: there is no retry and no backoff around the single
HTTP call to the extraction service: at most one post is ever made, the
list of backoff delays is always empty, and a failure runs one of three
except branches, each surfacing its own error message and returning no
result. -/
theorem c3_single_attempt (hasKey : Bool) (api : ApiResult) :
    (parsePromptWithGemini hasKey api).httpPosts ≤ 1 ∧
    (parsePromptWithGemini hasKey api).backoffDelays = [] ∧
    (∀ e, api = ApiResult.failure e → hasKey = true →
        (parsePromptWithGemini hasKey api).result = none ∧
        (parsePromptWithGemini hasKey api).msgs = [apiFailMsg e]) := by
  refine ⟨parse_posts hasKey api, parse_delays hasKey api, ?_⟩
  rintro e rfl rfl
  rw [parse_failure e]
  exact ⟨rfl, rfl⟩

theorem c3_witness :
    (parsePromptWithGemini true (ApiResult.failure ApiExc.jsonDecode)).httpPosts ≤ 1 ∧
    (parsePromptWithGemini true (ApiResult.failure ApiExc.jsonDecode)).result = none ∧
    (parsePromptWithGemini true (ApiResult.failure ApiExc.jsonDecode)).msgs = [Msg.apiJsonError] := by
  have h := c3_single_attempt true (ApiResult.failure ApiExc.jsonDecode)
  have h2 := h.2.2 ApiExc.jsonDecode rfl rfl
  exact ⟨h.1, h2.1, h2.2⟩

/-- Claim C8, as stated, is false: the request to the extraction endpoint
is issued with NO timeout argument at all, so there is no fixed timeout
and, with the requests-library default, the call can block indefinitely. -/
theorem c8_counterexample :
    (geminiHttpRequest "k").timeout = none ∧
    ¬ ∃ t : Nat, (geminiHttpRequest "k").timeout = some t := by
  refine ⟨rfl, ?_⟩
  rintro ⟨t, ht⟩
  simp [geminiHttpRequest] at ht

/-- Claim C8 amended: the HTTP request to the text-extraction endpoint is
issued with no timeout whatsoever; nothing bounds how long the call may
block. -/
theorem c8_no_timeout (apiKey : String) : (geminiHttpRequest apiKey).timeout = none := rfl

/-- Claim C1 (confirmed): with an extraction result whose company name is
nonempty, when the action is CREATE and no column-1 cell matches the
company exactly one new row is appended; when some column-1 cell matches
(whatever the action), the first matching row is updated in place (same
sheet length, every other row untouched, and the target is the topmost
match); when the action is UPDATE with no match, or the action is neither
CREATE nor UPDATE and there is no match, nothing is written and a failure
message is shown. -/
theorem c1_create_update_decision (env : Env) (sheet : Sheet) (pd : ParsedData)
    (hc : env.connectOk = true) (ho : env.openOutcome = OpenOutcome.ok)
    (hb : env.buttonPressed = true) (hp : env.prompt ≠ "")
    (hk : env.hasGeminiKey = true) (ha : env.apiResult = ApiResult.success pd)
    (hw : env.writeRaises = false) (hcm : companyOf pd ≠ "") :
    ((upperStr (pd.action.getD "") = "CREATE" ∧ findallCol1 sheet (companyOf pd) = []) →
        (runMain env sheet).writes = [WriteOp.appendRow (newRow (companyOf pd) pd env.now)] ∧
        applySheetOps sheet (runMain env sheet).writes =
          sheet ++ [newRow (companyOf pd) pd env.now] ∧
        Msg.addedOk ∈ (runMain env sheet).msgs) ∧
    (∀ r rest, findallCol1 sheet (companyOf pd) = r :: rest →
        applySheetOps sheet (runMain env sheet).writes =
          applyWrites sheet r (performedWrites pd env.now) ∧
        (applySheetOps sheet (runMain env sheet).writes).length = sheet.length ∧
        (∀ i, i ≠ r - 1 →
          (applySheetOps sheet (runMain env sheet).writes).getD i [] = sheet.getD i []) ∧
        (∀ x ∈ findallCol1 sheet (companyOf pd), r ≤ x) ∧
        Msg.updatedOk ∈ (runMain env sheet).msgs) ∧
    ((upperStr (pd.action.getD "") = "UPDATE" ∧ findallCol1 sheet (companyOf pd) = []) →
        (runMain env sheet).writes = [] ∧
        Msg.couldNotFindToUpdate ∈ (runMain env sheet).msgs) ∧
    ((upperStr (pd.action.getD "") ≠ "CREATE" ∧ upperStr (pd.action.getD "") ≠ "UPDATE" ∧
        findallCol1 sheet (companyOf pd) = []) →
        (runMain env sheet).writes = [] ∧
        Msg.undecided ∈ (runMain env sheet).msgs) := by
  have hup := updatePhase_parsed env sheet pd hb hp hk ha
  refine ⟨?_, ?_, ?_, ?_⟩
  · rintro ⟨hact, hcells⟩
    have hu : updatePhase env sheet =
        ⟨[WriteOp.appendRow (newRow (companyOf pd) pd env.now)]
        , [Msg.addingEntry, Msg.addedOk], 1, none, false⟩ := by
      rw [hup, handleParsed_create env sheet pd 1 hcm hw hact hcells]
    rw [runMain_phase_cont env sheet hc ho (by rw [hu]), hu]
    refine ⟨rfl, rfl, ?_⟩
    simp
  · rintro r rest hcells
    have hu : updatePhase env sheet =
        ⟨(performedWrites pd env.now).map (fun w => WriteOp.updateCell r w.1 w.2)
        , [Msg.updatingEntry, Msg.updatedOk], 1, none, false⟩ := by
      rw [hup, handleParsed_update env sheet pd 1 r rest hcm hw hcells]
    rw [runMain_phase_cont env sheet hc ho (by rw [hu]), hu]
    refine ⟨?_, ?_, ?_, ?_, ?_⟩
    · exact applySheetOps_updates r (performedWrites pd env.now) sheet
    · rw [applySheetOps_updates r (performedWrites pd env.now) sheet, applyWrites_length]
    · intro i hi
      rw [applySheetOps_updates r (performedWrites pd env.now) sheet,
        applyWrites_row_other sheet r (performedWrites pd env.now) i hi]
    · intro x hx
      exact findallFrom_head_min sheet (companyOf pd) 1 r rest hcells x hx
    · simp
  · rintro ⟨hact, hcells⟩
    have hu : updatePhase env sheet = ⟨[], [Msg.couldNotFindToUpdate], 1, none, true⟩ := by
      rw [hup, handleParsed_notfound env sheet pd 1 hcm hw hact hcells]
    rw [runMain_phase_early env sheet hc ho (by rw [hu]), hu]
    exact ⟨rfl, by simp⟩
  · rintro ⟨hact1, hact2, hcells⟩
    have hu : updatePhase env sheet = ⟨[], [Msg.undecided], 1, none, false⟩ := by
      rw [hup, handleParsed_undecided env sheet pd 1 hcm hw hact1 hact2 hcells]
    rw [runMain_phase_cont env sheet hc ho (by rw [hu]), hu]
    exact ⟨rfl, by simp⟩

def pdCreateAcme : ParsedData :=
  ⟨some "CREATE", some "Acme", none, some "Engineer", none, some "Applied"
  , none, none, none, none, none, none⟩

def envCreateAcme : Env :=
  ⟨true, OpenOutcome.ok, true, "applied to acme", true, ApiResult.success pdCreateAcme
  , false, false, "2025-01-02 03:04:05"⟩

theorem c1_witness :
    (runMain envCreateAcme []).writes =
      [WriteOp.appendRow (newRow (companyOf pdCreateAcme) pdCreateAcme "2025-01-02 03:04:05")] ∧
    Msg.addedOk ∈ (runMain envCreateAcme []).msgs := by
  have h := (c1_create_update_decision envCreateAcme [] pdCreateAcme rfl rfl rfl
      (by decide) rfl rfl rfl (by decide)).1 ⟨by decide, by decide⟩
  exact ⟨h.1, h.2.2⟩

/-- Modelled from the spec words for claim C4: the 1-based column whose
header cell (first row) carries the given label, which is where a
header-mapping implementation would write the corresponding field. -/
def headerIndexFrom (row : List String) (lbl : String) (idx : Nat) : Option Nat :=
  match row with
  | [] => none
  | c :: rest => if c = lbl then some idx else headerIndexFrom rest lbl (idx + 1)

def headerIndex (sheet : Sheet) (lbl : String) : Option Nat :=
  headerIndexFrom (sheet.getD 0 []) lbl 1

def pdUpdateSalary : ParsedData :=
  ⟨some "UPDATE", some "Acme", none, none, none, none, none, none
  , some "100k", none, none, none⟩

def headerSheet : Sheet := [["Company", "Salary"], ["Acme", "x"]]

def envUpdateSalary : Env :=
  ⟨true, OpenOutcome.ok, true, "acme salary is 100k", true, ApiResult.success pdUpdateSalary
  , false, false, "2025-01-02 03:04:05"⟩

/-- Claim C4, as stated, is false at a concrete input: the sheet headers
place Salary in column 2, yet updating the Acme row writes the extracted
salary to fixed column 8 (column H) and leaves the cell under the Salary
header untouched, so fields are written at fixed positions, not mapped
onto the header row. -/
theorem c4_counterexample :
    headerIndex headerSheet "Salary" = some 2 ∧
    cellVal (applySheetOps headerSheet (runMain envUpdateSalary headerSheet).writes) 2 8
      = "100k" ∧
    cellVal (applySheetOps headerSheet (runMain envUpdateSalary headerSheet).writes) 2 2
      = "x" ∧
    cellVal (applySheetOps headerSheet (runMain envUpdateSalary headerSheet).writes) 2 2
      ≠ "100k" := by
  refine ⟨by decide, by decide, by decide, by decide⟩

theorem findallCol1_cons_nomatch (h : List String) (rest : Sheet) (q : String)
    (hm : lowerStr (h.getD 0 "") ≠ lowerStr q) :
    findallCol1 (h :: rest) q = findallFrom rest q 2 := by
  rw [findallCol1, findallFrom, if_neg hm]

/-- The handler depends on the sheet only through the located cells. -/
theorem handleParsed_sheet_via_cells (env : Env) (s1 s2 : Sheet) (pd : ParsedData) (posts : Nat)
    (h : findallCol1 s1 (companyOf pd) = findallCol1 s2 (companyOf pd)) :
    handleParsed env s1 pd posts = handleParsed env s2 pd posts := by
  simp only [handleParsed]
  rw [h]

/-- Claim C4 amended: the handler writes at fixed column positions and
never consults the header row.  Replacing the header row by any other
(whose column-1 cell does not itself match the company) leaves the issued
writes unchanged; updates only ever target the fixed columns B through L;
and a new row is a fixed 12-element list. -/
theorem c4_fixed_columns (env : Env) (h1 h2 : List String) (rest : Sheet) (pd : ParsedData)
    (ha : env.apiResult = ApiResult.success pd)
    (hh1 : lowerStr (h1.getD 0 "") ≠ lowerStr (companyOf pd))
    (hh2 : lowerStr (h2.getD 0 "") ≠ lowerStr (companyOf pd)) :
    (runMain env (h1 :: rest)).writes = (runMain env (h2 :: rest)).writes ∧
    (∀ w ∈ performedWrites pd env.now, w.1 ∈ ([2, 3, 5, 6, 7, 8, 9, 10, 11, 12] : List Nat)) ∧
    (newRow (companyOf pd) pd env.now).length = 12 := by
  refine ⟨?_, ?_, rfl⟩
  · cases hcb : env.connectOk with
    | false => rw [runMain, runMain]; simp [hcb]
    | true =>
        cases hob : env.openOutcome with
        | ssNotFound => rw [runMain, runMain]; simp [hcb, hob]
        | wsNotFound => rw [runMain, runMain]; simp [hcb, hob]
        | otherErr => rw [runMain, runMain]; simp [hcb, hob]
        | ok =>
            have hu : updatePhase env (h1 :: rest) = updatePhase env (h2 :: rest) := by
              cases hbb : env.buttonPressed with
              | false => rw [updatePhase, updatePhase]; simp [hbb]
              | true =>
                  by_cases hpp : env.prompt = ""
                  · rw [updatePhase, updatePhase]; simp [hbb, hpp]
                  · cases hkb : env.hasGeminiKey with
                    | false =>
                        rw [updatePhase, updatePhase]
                        simp [hbb, hpp, hkb, ha, parsePromptWithGemini]
                    | true =>
                        rw [updatePhase_parsed env _ pd hbb hpp hkb ha,
                          updatePhase_parsed env _ pd hbb hpp hkb ha]
                        apply handleParsed_sheet_via_cells
                        rw [findallCol1_cons_nomatch _ _ _ hh1,
                          findallCol1_cons_nomatch _ _ _ hh2]
            cases hE : (updatePhase env (h2 :: rest)).earlyReturn with
            | true =>
                rw [runMain_phase_early env _ hcb hob (hu ▸ hE),
                  runMain_phase_early env _ hcb hob hE, hu]
            | false =>
                rw [runMain_phase_cont env _ hcb hob (hu ▸ hE),
                  runMain_phase_cont env _ hcb hob hE, hu]
  · intro w hw
    exact performedWrites_keys pd env.now (List.mem_map_of_mem Prod.fst hw)

theorem c4_witness :
    (runMain envUpdateSalary (["Careers", "Jobs"] :: [["Acme", "x"]])).writes =
      (runMain envUpdateSalary (["Openings"] :: [["Acme", "x"]])).writes := by
  exact (c4_fixed_columns envUpdateSalary ["Careers", "Jobs"] ["Openings"] [["Acme", "x"]]
    pdUpdateSalary rfl (by decide) (by decide)).1

theorem lookup_updatesBase (pd : ParsedData) (now : String) (c : Nat)
    (hcm : c ∈ ([2, 3, 5, 6, 7, 8, 9, 10, 11] : List Nat)) :
    List.lookup c (updatesBase pd now) = some (fieldForCol pd c) := by
  fin_cases hcm <;> rfl

/-- Claim C9 (confirmed): on a successful update of row r, the company
cell (column A = 1) and the date-applied cell (column D = 4) are never
written; each cell of columns B, C, E, F, G, H, I, J, K is overwritten
with the extracted value exactly when the extractor returned a truthy
(non-empty) value for the corresponding field and is left unchanged
otherwise; the last-updated cell (column L = 12) is always rewritten with
the timestamp; and no cell outside row r changes. -/
theorem c9_update_frame (pd : ParsedData) (now : String) (sheet : Sheet) (r : Nat)
    (hr : 1 ≤ r) (hrn : r ≤ sheet.length) (hnow : now ≠ "") :
    (∀ w ∈ performedWrites pd now, w.1 ≠ 1 ∧ w.1 ≠ 4) ∧
    (∀ c ∈ ([2, 3, 5, 6, 7, 8, 9, 10, 11] : List Nat),
        cellVal (applyWrites sheet r (performedWrites pd now)) r c =
          match truthyOpt (fieldForCol pd c) with
          | some v => v
          | none => cellVal sheet r c) ∧
    cellVal (applyWrites sheet r (performedWrites pd now)) r 12 = now ∧
    (∀ i c, 1 ≤ i → i ≠ r →
        cellVal (applyWrites sheet r (performedWrites pd now)) i c = cellVal sheet i c) := by
  refine ⟨?_, ?_, ?_, ?_⟩
  · intro w hw
    have hk : w.1 ∈ [2, 3, 5, 6, 7, 8, 9, 10, 11, 12] :=
      performedWrites_keys pd now (List.mem_map_of_mem Prod.fst hw)
    simp at hk
    omega
  · intro c hcm
    have hc1 : 1 ≤ c := by
      have h := hcm
      simp at h
      omega
    rw [cellVal_update pd now sheet r c hr hrn hc1, lookup_updatesBase pd now c hcm]
    cases htv : truthyOpt (fieldForCol pd c) with
    | none => simp [htv]
    | some v => simp [htv]
  · rw [cellVal_update pd now sheet r 12 hr hrn (by decide)]
    have hl : List.lookup 12 (updatesBase pd now) = some (some now) := rfl
    rw [hl]
    simp [truthyOpt, hnow]
  · intro i c hi hir
    unfold cellVal
    rw [applyWrites_row_other sheet r _ (i - 1) (by omega)]

theorem c9_witness :
    cellVal (applyWrites [["Acme", "Dev"]] 1
        (performedWrites pdUpdateSalary "2025-01-02 03:04:05")) 1 12
      = "2025-01-02 03:04:05" ∧
    cellVal (applyWrites [["Acme", "Dev"]] 1
        (performedWrites pdUpdateSalary "2025-01-02 03:04:05")) 2 1
      = cellVal [["Acme", "Dev"]] 2 1 := by
  have h := c9_update_frame pdUpdateSalary "2025-01-02 03:04:05" [["Acme", "Dev"]] 1
    (by decide) (by decide) (by decide)
  exact ⟨h.2.2.1, h.2.2.2 2 1 (by decide) (by decide)⟩

theorem runMain_writes_eq (env : Env) (sheet : Sheet)
    (hc : env.connectOk = true) (ho : env.openOutcome = OpenOutcome.ok) :
    (runMain env sheet).writes = (updatePhase env sheet).writes := by
  cases hE : (updatePhase env sheet).earlyReturn with
  | true => rw [runMain_phase_early env sheet hc ho hE]
  | false => rw [runMain_phase_cont env sheet hc ho hE]

theorem runMain_posts_eq (env : Env) (sheet : Sheet)
    (hc : env.connectOk = true) (ho : env.openOutcome = OpenOutcome.ok) :
    (runMain env sheet).geminiPosts = (updatePhase env sheet).geminiPosts := by
  cases hE : (updatePhase env sheet).earlyReturn with
  | true => rw [runMain_phase_early env sheet hc ho hE]
  | false => rw [runMain_phase_cont env sheet hc ho hE]

/-- Claim C10 (confirmed): with the button pressed, an empty prompt means
the extraction service is not called and the sheet is not written; a parse
that returned no result writes nothing; and a parsed record whose company
name (the company key, falling back to company_name when company is
missing or falsy, then stripped of whitespace) is empty writes nothing. -/
theorem c10_no_write_guards (env : Env) (sheet : Sheet)
    (hc : env.connectOk = true) (ho : env.openOutcome = OpenOutcome.ok)
    (hb : env.buttonPressed = true) :
    (env.prompt = "" →
        (runMain env sheet).writes = [] ∧ (runMain env sheet).geminiPosts = 0 ∧
        applySheetOps sheet (runMain env sheet).writes = sheet) ∧
    ((parsePromptWithGemini env.hasGeminiKey env.apiResult).result = none →
        (runMain env sheet).writes = []) ∧
    (∀ pd, env.apiResult = ApiResult.success pd → env.prompt ≠ "" → companyOf pd = "" →
        (runMain env sheet).writes = []) := by
  refine ⟨?_, ?_, ?_⟩
  · intro hp
    have hu : updatePhase env sheet = ⟨[], [Msg.enterUpdate], 0, none, false⟩ := by
      rw [updatePhase, hb]
      simp [hp]
    rw [runMain_writes_eq env sheet hc ho, runMain_posts_eq env sheet hc ho, hu]
    exact ⟨rfl, rfl, rfl⟩
  · intro hres
    by_cases hp : env.prompt = ""
    · have hu : updatePhase env sheet = ⟨[], [Msg.enterUpdate], 0, none, false⟩ := by
        rw [updatePhase, hb]
        simp [hp]
      rw [runMain_writes_eq env sheet hc ho, hu]
    · have hu : (updatePhase env sheet).writes = [] := by
        rw [updatePhase, hb]
        simp only [Bool.true_eq_false, if_false, if_neg hp]
        rw [hres]
      rw [runMain_writes_eq env sheet hc ho, hu]
  · intro pd ha hp hcm
    cases hkb : env.hasGeminiKey with
    | false =>
        have hres : (parsePromptWithGemini env.hasGeminiKey env.apiResult).result = none := by
          rw [hkb]
          rfl
        have hu : (updatePhase env sheet).writes = [] := by
          rw [updatePhase, hb]
          simp only [Bool.true_eq_false, if_false, if_neg hp]
          rw [hres]
        rw [runMain_writes_eq env sheet hc ho, hu]
    | true =>
        have hu : updatePhase env sheet = ⟨[], [Msg.noCompany], 1, none, true⟩ := by
          rw [updatePhase_parsed env sheet pd hb hp hkb ha,
            handleParsed_nocompany env sheet pd 1 hcm]
        rw [runMain_writes_eq env sheet hc ho, hu]

def envEmptyPrompt : Env :=
  ⟨true, OpenOutcome.ok, true, "", true, ApiResult.success pdCreateAcme, false, false, "t"⟩

theorem c10_witness :
    (runMain envEmptyPrompt [["Company"]]).writes = [] ∧
    (runMain envEmptyPrompt [["Company"]]).geminiPosts = 0 := by
  have h := (c10_no_write_guards envEmptyPrompt [["Company"]] rfl rfl rfl).1 rfl
  exact ⟨h.1, h.2.1⟩

def pdGhost : ParsedData :=
  ⟨some "CREATE", some "Acme", none, none, none, some "Ghosted"
  , none, none, none, none, none, none⟩

def envGhost : Env :=
  ⟨true, OpenOutcome.ok, true, "ghosted by acme", true, ApiResult.success pdGhost
  , false, false, "2025-01-02 03:04:05"⟩

/-- Claim C6, as stated, is false at a concrete input: the status of a
written record is the extractor string verbatim and is never validated, so
when the extractor returns the status Ghosted the appended row carries
Ghosted, which is outside the enumerated vocabulary. -/
theorem c6_counterexample :
    (runMain envGhost []).writes =
      [WriteOp.appendRow (newRow "Acme" pdGhost "2025-01-02 03:04:05")] ∧
    (newRow "Acme" pdGhost "2025-01-02 03:04:05").getD 4 "" = "Ghosted" ∧
    "Ghosted" ∉ statusVocab := by
  refine ⟨by decide, by decide, by decide⟩

/-- Claim C6 amended: every row written on create consists of exactly the
12 fixed string attributes in order (company, job title, contact,
date-applied, status, notes, link, salary, location, next-step date,
recruiter contact, last-updated); the update loop only ever writes the
fixed columns 2 through 12; and the status attribute is the extractor
string verbatim — defaulted to Applied when absent on create and written
unvalidated on update — with no check against the status vocabulary. -/
theorem c6_row_shape (company : String) (pd : ParsedData) (now : String) :
    (newRow company pd now).length = 12 ∧
    (newRow company pd now).getD 0 "" = company ∧
    (newRow company pd now).getD 3 "" = splitFirstSpace now ∧
    (newRow company pd now).getD 4 "" = pd.status.getD "Applied" ∧
    (newRow company pd now).getD 11 "" = now ∧
    List.lookup 5 (updatesBase pd now) = some pd.status ∧
    (performedWrites pd now).map Prod.fst ⊆ [2, 3, 5, 6, 7, 8, 9, 10, 11, 12] :=
  ⟨rfl, rfl, rfl, rfl, rfl, rfl, performedWrites_keys pd now⟩

def envRender : Env :=
  ⟨true, OpenOutcome.ok, false, "", true, ApiResult.success emptyPD, false, false, "t"⟩

/-- Claim C5, as stated, is false: there is no read-through cache anywhere
in the program.  A render of the dashboard always re-reads the sheet, so
two repeated renders of the unchanged state (hence within any time bound)
perform two sheet reads, where a read-through cache would perform one. -/
theorem c5_counterexample :
    (runMain envRender [["Company"], ["Acme"]]).sheetReads = 1 ∧
    (runMain envRender [["Company"], ["Acme"]]).sheetReads +
      (runMain envRender [["Company"], ["Acme"]]).sheetReads = 2 ∧
    ¬ ((runMain envRender [["Company"], ["Acme"]]).sheetReads +
        (runMain envRender [["Company"], ["Acme"]]).sheetReads ≤ 1) := by
  refine ⟨by decide, by decide, by decide⟩

/-- Claim C5 amended: dashboard reads go straight to the sheet on every
render: each run of the script that reaches the dashboard performs exactly
one get_all_records call, and no state carries over between runs (runMain
takes no cache as input and produces none). -/
theorem c5_no_cache (env : Env) (sheet : Sheet)
    (hc : env.connectOk = true) (ho : env.openOutcome = OpenOutcome.ok)
    (hb : env.buttonPressed = false) :
    (runMain env sheet).sheetReads = 1 := by
  have hu : updatePhase env sheet = ⟨[], [], 0, none, false⟩ := by
    rw [updatePhase, hb]
    simp
  rw [runMain_phase_cont env sheet hc ho (by rw [hu])]

theorem c5_witness : (runMain envRender [["Company"], ["Acme"]]).sheetReads = 1 :=
  c5_no_cache envRender [["Company"], ["Acme"]] rfl rfl rfl

theorem handleParsed_uncaught (env : Env) (sheet : Sheet) (pd : ParsedData) (posts : Nat) :
    (handleParsed env sheet pd posts).uncaught = none := by
  rw [handleParsed]
  by_cases h1 : companyOf pd = ""
  · simp [h1]
  · by_cases h2 : env.writeRaises = true
    · simp [h1, h2]
    · by_cases h3 : upperStr (pd.action.getD "") = "CREATE" ∧
          findallCol1 sheet (companyOf pd) = []
      · simp [h1, h2, h3]
      · by_cases h4 : upperStr (pd.action.getD "") = "UPDATE" ∨
            findallCol1 sheet (companyOf pd) ≠ []
        · cases hcl : findallCol1 sheet (companyOf pd) with
          | nil =>
              simp only [h1, h2, h3, h4, hcl, if_neg, if_pos, if_false, if_true]
              split_ifs <;> rfl
          | cons r rest => simp [h1, h2, h3, h4, hcl]
        · simp [h1, h2, h3, h4]

theorem updatePhase_uncaught (env : Env) (sheet : Sheet) :
    (updatePhase env sheet).uncaught = none := by
  rw [updatePhase]
  by_cases h1 : env.buttonPressed = false
  · simp [h1]
  · by_cases h2 : env.prompt = ""
    · simp [h1, h2]
    · cases hres : (parsePromptWithGemini env.hasGeminiKey env.apiResult).result with
      | none => simp [h1, h2, hres, parse_uncaught]
      | some pd => simp [h1, h2, hres, handleParsed_uncaught]

theorem runMain_uncaught (env : Env) (sheet : Sheet) :
    (runMain env sheet).uncaught = none := by
  cases hcb : env.connectOk with
  | false => rw [runMain]; simp [hcb]
  | true =>
      cases hob : env.openOutcome with
      | ssNotFound => rw [runMain]; simp [hcb, hob]
      | wsNotFound => rw [runMain]; simp [hcb, hob]
      | otherErr => rw [runMain]; simp [hcb, hob]
      | ok =>
          cases hE : (updatePhase env sheet).earlyReturn with
          | true =>
              rw [runMain_phase_early env sheet hcb hob hE]
              exact updatePhase_uncaught env sheet
          | false =>
              rw [runMain_phase_cont env sheet hcb hob hE]
              exact updatePhase_uncaught env sheet

/-- Claim C7 (confirmed): every failure of an external call (connecting,
opening the spreadsheet or worksheet, the extraction request, writing to
the sheet, reading the dashboard data) is caught at its call site and
surfaced as a user-facing message, and no exception ever escapes the
handler, over every environment. -/
theorem c7_errors_caught (env : Env) (sheet : Sheet) :
    (runMain env sheet).uncaught = none ∧
    (env.connectOk = false → Msg.connectError ∈ (runMain env sheet).msgs) ∧
    (env.connectOk = true → env.openOutcome = OpenOutcome.ssNotFound →
        Msg.spreadsheetNotFound ∈ (runMain env sheet).msgs) ∧
    (env.connectOk = true → env.openOutcome = OpenOutcome.wsNotFound →
        Msg.worksheetNotFound ∈ (runMain env sheet).msgs) ∧
    (env.connectOk = true → env.openOutcome = OpenOutcome.otherErr →
        Msg.openSheetError ∈ (runMain env sheet).msgs) ∧
    (∀ e, env.connectOk = true → env.openOutcome = OpenOutcome.ok →
        env.buttonPressed = true → env.prompt ≠ "" → env.hasGeminiKey = true →
        env.apiResult = ApiResult.failure e →
        apiFailMsg e ∈ (runMain env sheet).msgs) ∧
    (∀ pd, env.connectOk = true → env.openOutcome = OpenOutcome.ok →
        env.buttonPressed = true → env.prompt ≠ "" → env.hasGeminiKey = true →
        env.apiResult = ApiResult.success pd → companyOf pd ≠ "" →
        env.writeRaises = true →
        Msg.sheetUpdateError ∈ (runMain env sheet).msgs) ∧
    (env.connectOk = true → env.openOutcome = OpenOutcome.ok →
        env.buttonPressed = false → env.readRaises = true →
        Msg.fetchError ∈ (runMain env sheet).msgs) := by
  refine ⟨runMain_uncaught env sheet, ?_, ?_, ?_, ?_, ?_, ?_, ?_⟩
  · intro h
    rw [runMain]
    simp [h]
  · intro hc ho
    rw [runMain]
    simp [hc, ho]
  · intro hc ho
    rw [runMain]
    simp [hc, ho]
  · intro hc ho
    rw [runMain]
    simp [hc, ho]
  · intro e hc ho hb hp hk ha
    have hu : updatePhase env sheet = ⟨[], [apiFailMsg e], 1, none, false⟩ := by
      rw [updatePhase, hb, hk, ha, if_neg (by simp), if_neg hp, parse_failure e]
      rfl
    rw [runMain_phase_cont env sheet hc ho (by rw [hu]), hu]
    simp
  · intro pd hc ho hb hp hk ha hcm hwr
    have hu : updatePhase env sheet = ⟨[], [Msg.sheetUpdateError], 1, none, false⟩ := by
      rw [updatePhase_parsed env sheet pd hb hp hk ha,
        handleParsed_raises env sheet pd 1 hcm hwr]
    rw [runMain_phase_cont env sheet hc ho (by rw [hu]), hu]
    simp
  · intro hc ho hb hrr
    have hu : updatePhase env sheet = ⟨[], [], 0, none, false⟩ := by
      rw [updatePhase, hb]
      simp
    rw [runMain_phase_cont env sheet hc ho (by rw [hu]), hu]
    simp [hrr]

def envConnFail : Env :=
  ⟨false, OpenOutcome.ok, false, "", true, ApiResult.success emptyPD, false, false, "t"⟩

theorem c7_witness :
    (runMain envConnFail []).uncaught = none ∧
    Msg.connectError ∈ (runMain envConnFail []).msgs := by
  have h := c7_errors_caught envConnFail []
  exact ⟨h.1, h.2.1 rfl⟩

end AppTracker
